import Mathlib

/-!
# ChatCut — shallow embedding and verification

Shallow embedding of the ChatCut edit-history / undo bookkeeping
(`frontend/src/components/container.jsx`) and of the Premiere-side editing
actions (`src/services/editingActions.js`), together with proofs of the
specified properties.

Host-application effects (Premiere Pro API calls) are modelled by explicit
environment records: each fallible host call is represented by a field
saying whether (and how) it succeeds, and the embedded functions return,
besides the source's boolean result, a trace of the host mutations they
performed (keyframe writes, parameter values set), so that properties about
the written values can be stated.
-/

namespace ChatCut

/-! ## Data model -/

/-- Aggregate per-item outcome counts, as returned by the batch editing
functions (`zoomInBatch`, `zoomOutBatch`) and by `executeUndo`:
`{ successful, failed }`. -/
structure BatchCounts where
  successful : Nat
  failed : Nat
deriving DecidableEq, Repr

/-- One applied, undoable edit, as stored in `editHistory` by
`container.jsx` (`{ actionName, trackItems, previousState, parameters }`).
Host track items are modelled as numeric identifiers and the captured
previous-state snapshot as a numeric token; neither is inspected by the
bookkeeping code. -/
structure EditHistoryEntry where
  actionName : String
  trackItems : List Nat
  previousState : Nat
  parameters : List (String × ℚ)
deriving DecidableEq, Repr

/-- The session state owned by the `Container` component: the
`editHistory` array and the `chatCutUndosCount` undo cursor. -/
structure ContainerState where
  editHistory : List EditHistoryEntry
  chatCutUndosCount : Nat
deriving DecidableEq, Repr

/-- The initial component state: `useState([])` and `useState(0)`. -/
def initialState : ContainerState := ⟨[], 0⟩

/-- Which user-visible outcome `handleUndo` reported (the console messages
of `container.jsx`, abstracted to their kind). -/
inductive UndoReport where
  /-- Message: no ChatCut edits to undo. -/
  | nothingToUndo
  /-- Message: could not find edit history entry to undo. -/
  | entryMissing
  /-- Message: undo failed with error (the `catch` branch). -/
  | threw
  /-- Message: undo failed, could not reverse the edit (zero successes). -/
  | failedAll
  /-- Message: undo completed, with the reported counts. -/
  | undone (successful failed : Nat)
deriving DecidableEq, Repr

/-- Outcome reported by `handleRedo`. -/
inductive RedoReport where
  /-- Message: redo is not yet implemented. -/
  | notImplemented
deriving DecidableEq, Repr

/-- Embeds `handleUndo` from `container.jsx`.  The host-side restoration
`executeUndo(historyEntry)` (defined in `undoService.js`) is abstracted as
an oracle `exec : EditHistoryEntry → Option BatchCounts`; `none` models the
call throwing an exception (caught by the handler), `some r` models it
resolving with counts `r`.  Returns the new state and the reported
outcome. -/
def handleUndo (exec : EditHistoryEntry → Option BatchCounts)
    (s : ContainerState) : ContainerState × UndoReport :=
  -- const remainingEdits = editHistory.length - chatCutUndosCount;
  -- if (remainingEdits <= 0) return;
  if s.editHistory.length ≤ s.chatCutUndosCount then
    (s, .nothingToUndo)
  else
    -- const editIndex = editHistory.length - chatCutUndosCount - 1;
    match s.editHistory[s.editHistory.length - s.chatCutUndosCount - 1]? with
    | none => (s, .entryMissing)
    | some historyEntry =>
      match exec historyEntry with
      | none => (s, .threw)
      | some result =>
        if 0 < result.successful then
          ({ s with chatCutUndosCount := s.chatCutUndosCount + 1 },
            .undone result.successful result.failed)
        else
          (s, .failedAll)

/-- Embeds `handleRedo` from `container.jsx`: reports that redo is unimplemented
and performs no state change. -/
def handleRedo (s : ContainerState) : ContainerState × RedoReport :=
  (s, .notImplemented)

/-- Embeds `canUndo` from `container.jsx`:
`const canUndo = editHistory.length > chatCutUndosCount`. -/
def canUndo (s : ContainerState) : Bool :=
  decide (s.chatCutUndosCount < s.editHistory.length)

/-- JavaScript `array.slice(0, e)` with a possibly negative end index `e`
(a negative index counts from the end of the array, clamped at 0). -/
def jsSliceTo {α : Type} (l : List α) (e : Int) : List α :=
  if e < 0 then l.take ((l.length : Int) + e).toNat else l.take e.toNat

/-- The history-update block of `editClips` in `container.jsx` (the
`setEditHistory`/`setChatCutUndosCount` updates performed after a
successful dispatch): if the undo cursor is positive, trim the undone
entries with `prev.slice(0, prev.length - currentUndoCount)`, append the
new entry, and reset the cursor to 0; otherwise just append. -/
def recordEdit (s : ContainerState) (entry : EditHistoryEntry) :
    ContainerState :=
  let currentUndoCount := s.chatCutUndosCount
  if 0 < currentUndoCount then
    { editHistory :=
        jsSliceTo s.editHistory
          ((s.editHistory.length : Int) - (currentUndoCount : Int)) ++ [entry],
      chatCutUndosCount := 0 }
  else
    { editHistory := s.editHistory ++ [entry],
      chatCutUndosCount := s.chatCutUndosCount }

/-- The post-dispatch portion of `editClips` in `container.jsx`: after
`dispatchAction` returns `result`, a history entry
`{ actionName, trackItems, previousState, parameters }` is recorded iff
`result.successful > 0`; otherwise the state is left untouched. -/
def editClipsRecord (s : ContainerState) (actionName : String)
    (trackItems : List Nat) (previousState : Nat)
    (parameters : List (String × ℚ)) (result : BatchCounts) :
    ContainerState :=
  if 0 < result.successful then
    recordEdit s ⟨actionName, trackItems, previousState, parameters⟩
  else
    s

/-! ## Editing actions (`editingActions.js`)

Host track items are opaque numeric identifiers; the per-item host context
(clip validity, clip timing, whether each host call succeeds) is an
explicit environment record. -/

/-- Opaque host track-item reference. -/
abbrev TrackItem := Nat

/-- One keyframe written by `addKeyframe(param, project, seconds, value,
interp)`: its time in seconds, its value, and the requested interpolation
name. -/
structure Keyframe where
  time : ℚ
  value : ℚ
  interp : String
deriving DecidableEq, Repr

/-- The `options` object accepted by `zoomIn`/`zoomOut`.  A field is `none`
when the key is absent from the object (`hasOwnProperty` false). -/
structure ZoomOptions where
  startScale : Option ℚ := none
  endScale : Option ℚ := none
  startTime : Option ℚ := none
  duration : Option ℚ := none
  interpolation : Option String := none
  animated : Option Bool := none
deriving DecidableEq, Repr

/-- Host context for a `zoomIn` invocation: outcomes of the Premiere API
calls the function makes. -/
structure ZoomEnv where
  /-- Value of `validateClip(trackItem).valid` -/
  validClip : Bool
  /-- Whether `ppro.Project.getActiveProject()` returns a project -/
  hasProject : Bool
  /-- Whether `getMotionScaleParam` returns a context -/
  hasScaleParam : Bool
  /-- Value of `getClipDuration(trackItem)` (`none` models `null`) -/
  clipDuration : Option ℚ
  /-- Value of `getClipInPoint(trackItem)` (`none` models `null`) -/
  clipInPoint : Option ℚ
  /-- Whether `addKeyframe` at a given (seconds, value) succeeds -/
  addKeyframeOK : ℚ → ℚ → Bool

/-- JavaScript `v || dflt` on a possibly-absent number (`0` is falsy). -/
def jsOrNum (v : Option ℚ) (dflt : ℚ) : ℚ :=
  match v with
  | some d => if d = 0 then dflt else d
  | none => dflt

/-- JavaScript `v || dflt` on a possibly-absent string (`""` is falsy). -/
def jsOrStr (v : Option String) (dflt : String) : String :=
  match v with
  | some s => if s = "" then dflt else s
  | none => dflt

/-- JavaScript `s.toLowerCase()` (character-wise lowering). -/
def jsToLowerCase (s : String) : String := ⟨s.data.map Char.toLower⟩

/-- Embeds `zoomIn(trackItem, options)` from `editingActions.js`, for one clip
whose host context is `env`.  Returns the source's boolean result together
with the list of keyframes actually written (in order). -/
def zoomIn (env : ZoomEnv) (options : ZoomOptions) : Bool × List Keyframe :=
  let startScale := options.startScale.getD 100
  let endScale := options.endScale.getD 150
  let startTime := options.startTime.getD 0
  let interpolation := jsOrStr options.interpolation "BEZIER"
  let animated := options.animated.getD false
  -- static: same value at both ends
  let actualStartScale := if animated then startScale else endScale
  let actualEndScale := endScale
  if !env.validClip then (false, [])
  else if !env.hasProject then (false, [])
  else if !env.hasScaleParam then (false, [])
  else
    match env.clipDuration, env.clipInPoint with
    | some clipDuration, some clipStartTime =>
      -- var zoomDuration = duration || clipDuration;
      let zoomDuration := jsOrNum options.duration clipDuration
      let absoluteStartTime := clipStartTime + startTime
      let absoluteEndTime := absoluteStartTime + zoomDuration
      if env.addKeyframeOK absoluteStartTime actualStartScale then
        let kfStart : Keyframe := ⟨absoluteStartTime, actualStartScale, interpolation⟩
        if env.addKeyframeOK absoluteEndTime actualEndScale then
          (true, [kfStart, ⟨absoluteEndTime, actualEndScale, interpolation⟩])
        else (false, [kfStart])
      else (false, [])
    | _, _ => (false, [])

/-- Embeds `zoomOut(trackItem, options)` from `editingActions.js`: copies
`options` into `rest`, overrides `startScale` (default 150) and `endScale`
(default 100), and delegates to `zoomIn`. -/
def zoomOut (env : ZoomEnv) (options : ZoomOptions) : Bool × List Keyframe :=
  let rest : ZoomOptions :=
    { options with
      startScale := some (options.startScale.getD 150),
      endScale := some (options.endScale.getD 100) }
  zoomIn env rest

/-- Embeds `zoomInBatch(trackItems, options)` from `editingActions.js`: applies
`zoomIn` to each item in order (the host context of item `it` is
`envOf it`), counting per-item successes and failures. -/
def zoomInBatch (envOf : TrackItem → ZoomEnv) (trackItems : List TrackItem)
    (options : ZoomOptions) : BatchCounts :=
  trackItems.foldl
    (fun acc it =>
      if (zoomIn (envOf it) options).1 then
        ⟨acc.successful + 1, acc.failed⟩
      else
        ⟨acc.successful, acc.failed + 1⟩)
    ⟨0, 0⟩

/-- Embeds `zoomOutBatch(trackItems, options)` from `editingActions.js`: same
loop with `zoomOut`. -/
def zoomOutBatch (envOf : TrackItem → ZoomEnv) (trackItems : List TrackItem)
    (options : ZoomOptions) : BatchCounts :=
  trackItems.foldl
    (fun acc it =>
      if (zoomOut (envOf it) options).1 then
        ⟨acc.successful + 1, acc.failed⟩
      else
        ⟨acc.successful, acc.failed + 1⟩)
    ⟨0, 0⟩

/-- Host context for `applyBlur`. -/
structure BlurEnv where
  /-- Whether `ppro.Project.getActiveProject()` returns a project -/
  hasProject : Bool
  /-- Whether a track item was provided -/
  hasTrackItem : Bool
  /-- Whether `trackItem.getComponentChain()` returns a chain -/
  hasComponentChain : Bool
  /-- Whether `findBlurrinessParam()` finds a "Blurriness" parameter directly -/
  findsBlurriness : Bool
  /-- Whether appending the Gaussian Blur component succeeds (`executeAction`
  does not reject) -/
  appendOK : Bool
  /-- Whether `findBlurrinessParam()` finds the parameter after the append -/
  findsAfterAppend : Bool
  /-- Whether the `createSetValueAction` transaction succeeds -/
  setValueOK : Bool
deriving DecidableEq, Repr

/-- Embeds `applyBlur(trackItem, blurriness)` from `editingActions.js`.
`blurriness = none` models the argument being absent or not a number
(`typeof blurriness === "number"` false).  Returns the boolean result and
the Blurriness value actually set, if any. -/
def applyBlur (env : BlurEnv) (blurriness : Option ℚ) : Bool × Option ℚ :=
  let b := blurriness.getD 50
  if !env.hasProject then (false, none)
  else if !env.hasTrackItem then (false, none)
  else if !env.hasComponentChain then (false, none)
  else if env.findsBlurriness then
    if env.setValueOK then (true, some b) else (false, none)
  else if !env.appendOK then (false, none)
  else if env.findsAfterAppend then
    if env.setValueOK then (true, some b) else (false, none)
  else (false, none)

/-- The `AddTransitionOptions` object built by `applyTransition` before
handing the transition to the host. -/
structure AddTransitionOptions where
  applyToStart : Bool
  duration : ℚ
  forceSingleSided : Bool
  transitionAlignment : ℚ
deriving DecidableEq, Repr

/-- Host context for `applyTransition`. -/
structure TransitionEnv where
  /-- Value of `TransitionFactory.getVideoTransitionMatchNames()` -/
  matchNames : List String
  /-- Whether creating and adding the transition succeeds -/
  addOK : Bool
deriving Repr

/-- Embeds `applyTransition(item, transitionName, durationSeconds, applyToStart,
transitionAlignment)` from `editingActions.js`.  `none` arguments model
absent / wrongly-typed parameters (the `typeof` checks fail).  Returns the
boolean result and the options object handed to the host, if the
transition was applied. -/
def applyTransition (env : TransitionEnv) (transitionName : String)
    (durationSeconds : Option ℚ) (applyToStart : Option Bool)
    (transitionAlignment : Option ℚ) : Bool × Option AddTransitionOptions :=
  let d := durationSeconds.getD 1
  let start := applyToStart.getD true
  let align := transitionAlignment.getD (1 / 2)
  match env.matchNames.find?
      (fun n => jsToLowerCase n == jsToLowerCase transitionName) with
  | none => (false, none)
  | some _ =>
    if env.addOK then
      (true, some ⟨start, d, false, align⟩)
    else (false, none)

/-! ## Provider abstraction (backend) -/

/-- The normalized output of prompt processing (spec §3 `ActionResult`):
`action` (single recognized operation, or absent), `actions` (ordered
sequence when multiple are extracted), `parameters`, `confidence` in
`[0,1]`, `message`, `error`. -/
structure ActionResult where
  action : Option String
  actions : List String
  parameters : List (String × ℚ)
  confidence : ℚ
  message : Option String
  error : Option String
deriving DecidableEq, Repr

/-- The internal outcome a provider run can end in: some failure
(missing credentials, network error, malformed upstream response,
unparseable content, small talk, ...), a single extracted action, or a
non-empty sequence of extracted actions. -/
inductive ProviderOutcome where
  | failure (code : String) (msg : String)
  | singleAction (name : String) (params : List (String × ℚ)) (msg : Option String)
  | multiAction (first : String) (rest : List String)
      (params : List (String × ℚ)) (msg : Option String)
deriving DecidableEq, Repr

/-- Modelled from the spec: the backend provider implementations
(`backend/services/providers/...`) are not among the available sources, so
`processPrompt` is modelled from spec §4.1 — it never throws; on any
internal failure it returns an `ActionResult` with `error` set and
`confidence = 0.0`; on success `confidence = 1.0` and exactly one of
`action` / `actions` is populated alongside `parameters`. -/
def processPrompt : ProviderOutcome → ActionResult
  | .failure code msg => ⟨none, [], [], 0, some msg, some code⟩
  | .singleAction name params msg => ⟨some name, [], params, 1, msg, none⟩
  | .multiAction first rest params msg => ⟨none, first :: rest, params, 1, msg, none⟩

/-! ## Concrete fixtures used by the witnesses and counterexamples -/

/-- Sample history entry. -/
def entryA : EditHistoryEntry := ⟨"zoomIn", [0], 10, [("endScale", 120)]⟩

/-- Sample history entry. -/
def entryB : EditHistoryEntry := ⟨"applyBlur", [1], 11, [("blurriness", 30)]⟩

/-- Sample history entry. -/
def entryC : EditHistoryEntry := ⟨"zoomOut", [2], 12, []⟩

/-- Sample history entry (the `E4` of the history-trimming example). -/
def entryD : EditHistoryEntry := ⟨"applyTransition", [3], 13, []⟩

/-- A three-entry history with two entries already undone. -/
def stateTrim : ContainerState := ⟨[entryA, entryB, entryC], 2⟩

/-- An `executeUndo` oracle that restores every clip of the entry. -/
def execAllOK : EditHistoryEntry → Option BatchCounts :=
  fun e => some ⟨e.trackItems.length, 0⟩

/-- An `executeUndo` oracle that fails on every clip. -/
def execAllFail : EditHistoryEntry → Option BatchCounts :=
  fun _ => some ⟨0, 3⟩

/-- An `executeUndo` oracle that throws. -/
def execThrows : EditHistoryEntry → Option BatchCounts :=
  fun _ => none

/-- A fully healthy zoom host context (keyframe writes always succeed,
clip runs from 2s for 5s). -/
def envOK : ZoomEnv :=
  ⟨true, true, true, some 5, some 2, fun _ _ => true⟩

/-- A host context whose clip fails validation. -/
def envBad : ZoomEnv :=
  { envOK with validClip := false }

/-- Per-item host contexts for a five-clip batch in which exactly the
second and fourth clips fail validation. -/
def envOf5 : TrackItem → ZoomEnv :=
  fun it => if it = 1 ∨ it = 3 then envBad else envOK

/-- Zoom options requesting an animated zoom whose start and end scales
are both 120. -/
def optsSame : ZoomOptions :=
  { startScale := some 120, endScale := some 120, animated := some true }

/-- Zoom options requesting an animated zoom with default scales. -/
def optsAnim : ZoomOptions := { animated := some true }

/-- A healthy blur host context. -/
def blurEnvOK : BlurEnv := ⟨true, true, true, true, true, true, true⟩

/-- A healthy transition host context offering a "Cross Dissolve". -/
def transEnvOK : TransitionEnv := ⟨["Cross Dissolve"], true⟩

/-- Spec-side description of how `zoomOut` is claimed to transform its
options before delegating to `zoomIn`: `startScale` defaults to 150 and
`endScale` to 100 when those keys are absent, while explicitly present
values pass through unchanged.  Written from the claim, to be compared
against the source-derived `zoomOut`. -/
def zoomOutOptionsSpec (options : ZoomOptions) : ZoomOptions :=
  { options with
    startScale :=
      match options.startScale with
      | some v => some v
      | none => some 150,
    endScale :=
      match options.endScale with
      | some v => some v
      | none => some 100 }

/-! ## Helper lemmas -/

/-- Filtering a list by `p` and by `not p` partitions its length. -/
theorem length_filter_add_length_filter_not {α : Type} (p : α → Bool)
    (l : List α) :
    (l.filter p).length + (l.filter (fun a => !(p a))).length = l.length := by
  induction l with
  | nil => rfl
  | cons a t ih =>
    cases h : p a <;> simp [List.filter_cons, h] <;> omega

/-- Characterization of the counting fold used by the batch functions. -/
theorem foldl_batchCounts {α : Type} (p : α → Bool) (l : List α)
    (s f : Nat) :
    l.foldl
      (fun acc it =>
        if p it then (⟨acc.successful + 1, acc.failed⟩ : BatchCounts)
        else ⟨acc.successful, acc.failed + 1⟩)
      ⟨s, f⟩ =
      ⟨s + (l.filter p).length, f + (l.filter (fun a => !(p a))).length⟩ := by
  induction l generalizing s f with
  | nil => simp
  | cons a t ih =>
    cases h : p a <;> simp [List.filter_cons, h, List.foldl_cons, ih] <;> omega

/-- Under the cursor invariant, `recordEdit` trims the undone suffix,
appends the new entry, and zeroes the cursor. -/
theorem recordEdit_eq (s : ContainerState) (entry : EditHistoryEntry)
    (h : s.chatCutUndosCount ≤ s.editHistory.length) :
    recordEdit s entry =
      ⟨s.editHistory.take (s.editHistory.length - s.chatCutUndosCount) ++
        [entry], 0⟩ := by
  unfold recordEdit jsSliceTo
  by_cases hc : 0 < s.chatCutUndosCount
  · have hnn : ¬ ((s.editHistory.length : Int) - (s.chatCutUndosCount : Int) < 0) := by
      omega
    have htn : ((s.editHistory.length : Int) - (s.chatCutUndosCount : Int)).toNat =
        s.editHistory.length - s.chatCutUndosCount := by omega
    simp [hc, hnn, htn]
  · have h0 : s.chatCutUndosCount = 0 := by omega
    simp [hc, h0]

/-- Both keyframes of a successful two-write `zoomIn` carry the statically
determined scale values: the first carries `startScale` (default 100) when
animated and `endScale` (default 150) otherwise, the second always carries
`endScale` (default 150); both carry the requested interpolation. -/
theorem zoomIn_result_keyframes (env : ZoomEnv) (options : ZoomOptions)
    (kf1 kf2 : Keyframe) (h : zoomIn env options = (true, [kf1, kf2])) :
    kf1.value = (if options.animated.getD false then options.startScale.getD 100
                 else options.endScale.getD 150) ∧
    kf2.value = options.endScale.getD 150 ∧
    kf1.interp = jsOrStr options.interpolation "BEZIER" ∧
    kf2.interp = jsOrStr options.interpolation "BEZIER" := by
  simp only [zoomIn] at h
  repeat' split at h
  all_goals simp at h
  all_goals (obtain ⟨h1, h2⟩ := h; subst h1; subst h2; simp_all)

/-! ## Claim theorems -/

/-- C1: for every history of length `N` and undo cursor `c` with
`0 ≤ c ≤ N`, `handleUndo` behaves as specified: at `c = N` it reports
nothing-to-undo and changes nothing; otherwise it selects the entry at
position `N - c - 1`, increments the cursor by exactly 1 when the
restoration reports at least one per-item success, and leaves the cursor
unchanged while reporting failure when every per-item restoration
fails. -/
theorem handleUndo_spec (exec : EditHistoryEntry → Option BatchCounts)
    (s : ContainerState)
    (h : s.chatCutUndosCount ≤ s.editHistory.length) :
    (s.chatCutUndosCount = s.editHistory.length →
      handleUndo exec s = (s, UndoReport.nothingToUndo)) ∧
    (s.chatCutUndosCount < s.editHistory.length →
      ∃ entry,
        s.editHistory[s.editHistory.length - s.chatCutUndosCount - 1]? =
          some entry ∧
        (∀ r, exec entry = some r → 0 < r.successful →
          handleUndo exec s =
            ({ s with chatCutUndosCount := s.chatCutUndosCount + 1 },
              UndoReport.undone r.successful r.failed)) ∧
        (∀ r, exec entry = some r → r.successful = 0 →
          handleUndo exec s = (s, UndoReport.failedAll))) := by
  constructor
  · intro heq
    have hle : s.editHistory.length ≤ s.chatCutUndosCount := le_of_eq heq.symm
    simp [handleUndo, hle]
  · intro hlt
    have hidx : s.editHistory.length - s.chatCutUndosCount - 1 <
        s.editHistory.length := by omega
    refine ⟨s.editHistory[s.editHistory.length - s.chatCutUndosCount - 1],
      List.getElem?_eq_getElem hidx, ?_, ?_⟩
    · intro r hr hpos
      have hcond : ¬ (s.editHistory.length ≤ s.chatCutUndosCount) := by omega
      simp [handleUndo, hcond, List.getElem?_eq_getElem hidx, hr, hpos]
    · intro r hr hzero
      have hcond : ¬ (s.editHistory.length ≤ s.chatCutUndosCount) := by omega
      simp [handleUndo, hcond, List.getElem?_eq_getElem hidx, hr, hzero]

/-- C1 witness: a first undo from a one-entry history increments the
cursor to 1 and reports one reversed clip; a second undo, with the cursor
already at the history length, performs no mutation. -/
theorem handleUndo_spec_witness :
    handleUndo execAllOK ⟨[entryA], 0⟩ =
      (⟨[entryA], 1⟩, UndoReport.undone 1 0) ∧
    handleUndo execAllOK ⟨[entryA], 1⟩ =
      (⟨[entryA], 1⟩, UndoReport.nothingToUndo) := by
  constructor
  · obtain ⟨-, h2⟩ :=
      handleUndo_spec execAllOK ⟨[entryA], 0⟩ (by decide)
    obtain ⟨entry, hget, hsucc, -⟩ := h2 (by decide)
    have hentry : entry = entryA := by
      simpa using hget.symm
    subst hentry
    simpa using hsucc ⟨1, 0⟩ (by decide) (by decide)
  · exact (handleUndo_spec execAllOK ⟨[entryA], 1⟩ (by decide)).1 (by decide)

/-- C2: recording a new edit discards the most recent `cursor` entries,
appends the new entry, and resets the cursor to 0 (with `cursor = 0` this
is a plain append). -/
theorem recordEdit_spec (s : ContainerState) (entry : EditHistoryEntry)
    (h : s.chatCutUndosCount ≤ s.editHistory.length) :
    (recordEdit s entry).editHistory =
      s.editHistory.take (s.editHistory.length - s.chatCutUndosCount) ++
        [entry] ∧
    (recordEdit s entry).chatCutUndosCount = 0 := by
  rw [recordEdit_eq s entry h]
  exact ⟨rfl, rfl⟩

/-- C2 witness: from history `[entryA, entryB, entryC]` with cursor 2,
recording `entryD` yields history `[entryA, entryD]` and cursor 0. -/
theorem recordEdit_spec_witness :
    (recordEdit stateTrim entryD).editHistory = [entryA, entryD] ∧
    (recordEdit stateTrim entryD).chatCutUndosCount = 0 := by
  obtain ⟨h1, h2⟩ := recordEdit_spec stateTrim entryD (by decide)
  refine ⟨?_, h2⟩
  rw [h1]
  decide

/-- C3: the invariant `cursor ≤ length history` holds initially and is
preserved by `recordEdit`, by `handleUndo` (successful, failed, or
throwing), and by the `handleRedo` no-op; `canUndo` is true exactly when
`cursor < length history`. -/
theorem cursor_invariant_spec :
    initialState.chatCutUndosCount ≤ initialState.editHistory.length ∧
    (∀ (s : ContainerState) (entry : EditHistoryEntry),
      s.chatCutUndosCount ≤ s.editHistory.length →
      (recordEdit s entry).chatCutUndosCount ≤
        (recordEdit s entry).editHistory.length) ∧
    (∀ (s : ContainerState) (exec : EditHistoryEntry → Option BatchCounts),
      s.chatCutUndosCount ≤ s.editHistory.length →
      (handleUndo exec s).1.chatCutUndosCount ≤
        (handleUndo exec s).1.editHistory.length) ∧
    (∀ s : ContainerState,
      s.chatCutUndosCount ≤ s.editHistory.length →
      (handleRedo s).1.chatCutUndosCount ≤
        (handleRedo s).1.editHistory.length) ∧
    (∀ s : ContainerState,
      canUndo s = true ↔ s.chatCutUndosCount < s.editHistory.length) := by
  refine ⟨Nat.le_refl 0, ?_, ?_, fun s h => h, fun s => by simp [canUndo]⟩
  · intro s entry h
    rw [recordEdit_eq s entry h]
    exact Nat.zero_le _
  · intro s exec h
    unfold handleUndo
    by_cases h1 : s.editHistory.length ≤ s.chatCutUndosCount
    · simpa [h1] using h
    · have hlt : s.chatCutUndosCount < s.editHistory.length := by omega
      simp only [h1, if_false]
      cases hE : s.editHistory[s.editHistory.length - s.chatCutUndosCount - 1]? with
      | none => simpa [hE] using h
      | some entry =>
        cases hR : exec entry with
        | none => simpa [hE, hR] using h
        | some r =>
          by_cases hp : 0 < r.successful
          · simp [hE, hR, hp]
            omega
          · simpa [hE, hR, hp] using h

/-- C3 witness: the invariant holds after recording an edit over a
trimmed history and after an undo, at concrete states. -/
theorem cursor_invariant_spec_witness :
    (recordEdit stateTrim entryD).chatCutUndosCount ≤
      (recordEdit stateTrim entryD).editHistory.length ∧
    (handleUndo execAllOK stateTrim).1.chatCutUndosCount ≤
      (handleUndo execAllOK stateTrim).1.editHistory.length :=
  ⟨cursor_invariant_spec.2.1 stateTrim entryD (by decide),
   cursor_invariant_spec.2.2.1 stateTrim execAllOK (by decide)⟩

/-- C4: batch dispatch processes every item in order, never fails as a
whole, and returns counts with `successful` the number of per-item
successes, `failed` the number of per-item failures, and
`successful + failed = N`; with 5 items of which exactly 2 fail it
reports `{successful := 3, failed := 2}`. -/
theorem batch_dispatch_spec :
    (∀ (envOf : TrackItem → ZoomEnv) (items : List TrackItem)
        (options : ZoomOptions),
      (zoomInBatch envOf items options).successful =
        (items.filter (fun it => (zoomIn (envOf it) options).1)).length ∧
      (zoomInBatch envOf items options).failed =
        (items.filter (fun it => !((zoomIn (envOf it) options).1))).length ∧
      (zoomInBatch envOf items options).successful +
        (zoomInBatch envOf items options).failed = items.length) ∧
    (∀ (envOf : TrackItem → ZoomEnv) (items : List TrackItem)
        (options : ZoomOptions),
      (zoomOutBatch envOf items options).successful =
        (items.filter (fun it => (zoomOut (envOf it) options).1)).length ∧
      (zoomOutBatch envOf items options).failed =
        (items.filter (fun it => !((zoomOut (envOf it) options).1))).length ∧
      (zoomOutBatch envOf items options).successful +
        (zoomOutBatch envOf items options).failed = items.length) ∧
    zoomInBatch envOf5 [0, 1, 2, 3, 4] {} = ⟨3, 2⟩ := by
  refine ⟨?_, ?_, by decide⟩
  · intro envOf items options
    have hfold := foldl_batchCounts
      (fun it => (zoomIn (envOf it) options).1) items 0 0
    have hpart := length_filter_add_length_filter_not
      (fun it => (zoomIn (envOf it) options).1) items
    unfold zoomInBatch
    rw [hfold]
    exact ⟨by simp, by simp, by simpa using hpart⟩
  · intro envOf items options
    have hfold := foldl_batchCounts
      (fun it => (zoomOut (envOf it) options).1) items 0 0
    have hpart := length_filter_add_length_filter_not
      (fun it => (zoomOut (envOf it) options).1) items
    unfold zoomOutBatch
    rw [hfold]
    exact ⟨by simp, by simp, by simpa using hpart⟩

/-- C5 counterexample: on an animated zoom whose supplied start and end
scales are both 120, the two keyframes written carry equal values, so the
values are not distinct even though `animated = true`. -/
theorem zoom_animated_distinct_counterexample :
    optsSame.animated = some true ∧
    (zoomIn envOK optsSame).1 = true ∧
    ((zoomIn envOK optsSame).2.map Keyframe.value) = [120, 120] ∧
    ¬ (∃ a b : ℚ,
        ((zoomIn envOK optsSame).2.map Keyframe.value) = [a, b] ∧ a ≠ b) := by
  have hz : zoomIn envOK optsSame =
      (true, [⟨2, 120, "BEZIER"⟩, ⟨7, 120, "BEZIER"⟩]) := by
    simp [zoomIn, envOK, optsSame, jsOrNum, jsOrStr]
    norm_num
  refine ⟨rfl, by rw [hz], by rw [hz]; rfl, ?_⟩
  rintro ⟨a, b, hab, hne⟩
  rw [hz] at hab
  simp only [List.map_cons, List.map_nil, List.cons.injEq, and_true] at hab
  exact hne (hab.1.symm.trans hab.2)

/-- C5 (amended): when `animated` is true the start keyframe carries the
start-scale value and the end keyframe the end-scale value — distinct
whenever the two scales differ, in particular under the default scales —
while when `animated` is false or absent both keyframes carry the
end-scale value. -/
theorem zoom_keyframe_values_spec :
    ∀ (env : ZoomEnv) (options : ZoomOptions) (kf1 kf2 : Keyframe),
      zoomIn env options = (true, [kf1, kf2]) →
      (options.animated = some true →
        kf1.value = options.startScale.getD 100 ∧
        kf2.value = options.endScale.getD 150) ∧
      (options.animated.getD false = false →
        kf1.value = options.endScale.getD 150 ∧
        kf2.value = options.endScale.getD 150) ∧
      (options.animated = some true → options.startScale = none →
        options.endScale = none → kf1.value ≠ kf2.value) := by
  intro env options kf1 kf2 h
  obtain ⟨h1, h2, -, -⟩ := zoomIn_result_keyframes env options kf1 kf2 h
  refine ⟨?_, ?_, ?_⟩
  · intro ha
    rw [ha] at h1
    simp at h1
    exact ⟨h1, h2⟩
  · intro ha
    rw [ha] at h1
    simp at h1
    exact ⟨h1, h2⟩
  · intro ha hs he
    rw [ha, hs, he] at h1
    rw [he] at h2
    simp at h1 h2
    rw [h1, h2]
    norm_num

/-- C5 witness: an animated zoom with default scales writes 100 then 150,
two distinct values; a static zoom writes the end value at both times. -/
theorem zoom_keyframe_values_spec_witness :
    ((⟨2, 100, "BEZIER"⟩ : Keyframe).value = optsAnim.startScale.getD 100 ∧
      (⟨7, 150, "BEZIER"⟩ : Keyframe).value = optsAnim.endScale.getD 150) ∧
    (⟨2, 100, "BEZIER"⟩ : Keyframe).value ≠
      (⟨7, 150, "BEZIER"⟩ : Keyframe).value := by
  have hz : zoomIn envOK optsAnim =
      (true, [⟨2, 100, "BEZIER"⟩, ⟨7, 150, "BEZIER"⟩]) := by
    simp [zoomIn, envOK, optsAnim, jsOrNum, jsOrStr]
    norm_num
  obtain ⟨hA, -, hD⟩ :=
    zoom_keyframe_values_spec envOK optsAnim ⟨2, 100, "BEZIER"⟩
      ⟨7, 150, "BEZIER"⟩ hz
  exact ⟨hA rfl, hD rfl rfl rfl⟩

/-- C6: unspecified parameters get their documented defaults — zoom-in
`startScale = 100`, `endScale = 150`; zoom-out the mirror 150/100; blur
`blurriness = 50`; transition `duration = 1.0`, `applyToStart = true`,
`alignment = 0.5` — while supplied values are used unchanged. -/
theorem default_parameters_spec :
    (∀ (env : ZoomEnv) (options : ZoomOptions) (kf1 kf2 : Keyframe),
      zoomIn env options = (true, [kf1, kf2]) →
        (options.endScale = none → kf2.value = 150) ∧
        (∀ v, options.endScale = some v → kf2.value = v) ∧
        (options.animated = some true →
          (options.startScale = none → kf1.value = 100) ∧
          (∀ v, options.startScale = some v → kf1.value = v))) ∧
    (∀ (env : ZoomEnv) (options : ZoomOptions) (kf1 kf2 : Keyframe),
      zoomOut env options = (true, [kf1, kf2]) →
        (options.endScale = none → kf2.value = 100) ∧
        (∀ v, options.endScale = some v → kf2.value = v) ∧
        (options.animated = some true →
          (options.startScale = none → kf1.value = 150) ∧
          (∀ v, options.startScale = some v → kf1.value = v))) ∧
    (∀ (env : BlurEnv) (b : Option ℚ) (ok : Bool) (v : ℚ),
      applyBlur env b = (ok, some v) →
        (b = none → v = 50) ∧ (∀ x, b = some x → v = x)) ∧
    (∀ (env : TransitionEnv) (name : String) (d : Option ℚ)
        (st : Option Bool) (al : Option ℚ) (o : AddTransitionOptions),
      applyTransition env name d st al = (true, some o) →
        (d = none → o.duration = 1) ∧
        (∀ x, d = some x → o.duration = x) ∧
        (st = none → o.applyToStart = true) ∧
        (∀ x, st = some x → o.applyToStart = x) ∧
        (al = none → o.transitionAlignment = 1 / 2) ∧
        (∀ x, al = some x → o.transitionAlignment = x)) := by
  refine ⟨?_, ?_, ?_, ?_⟩
  · intro env options kf1 kf2 h
    obtain ⟨h1, h2, -, -⟩ := zoomIn_result_keyframes env options kf1 kf2 h
    refine ⟨fun he => by simp [he] at h2; exact h2,
      fun v hv => by simp [hv] at h2; exact h2, fun ha => ?_⟩
    rw [ha] at h1
    simp at h1
    exact ⟨fun hs => by simp [hs] at h1; exact h1,
      fun v hv => by simp [hv] at h1; exact h1⟩
  · intro env options kf1 kf2 h
    unfold zoomOut at h
    obtain ⟨h1, h2, -, -⟩ := zoomIn_result_keyframes env _ kf1 kf2 h
    simp only [Option.getD_some] at h1 h2
    refine ⟨fun he => by simp [he] at h2; exact h2,
      fun v hv => by simp [hv] at h2; exact h2, fun ha => ?_⟩
    simp only [ha, Option.getD_some, if_true] at h1
    exact ⟨fun hs => by simp [hs] at h1; exact h1,
      fun v hv => by simp [hv] at h1; exact h1⟩
  · intro env b ok v h
    unfold applyBlur at h
    repeat' split at h
    all_goals simp_all
    all_goals (cases b <;> simp_all)
  · intro env name d st al o h
    unfold applyTransition at h
    repeat' split at h
    all_goals simp at h
    subst h
    refine ⟨fun he => by simp [he], fun x hx => by simp [hx],
      fun he => by simp [he], fun x hx => by simp [hx],
      fun he => by simp [he], fun x hx => by simp [hx]⟩

/-- C6 witness: with every optional parameter absent, an animated zoom-in
writes 100 and 150, a zoom-out writes 100 at the end, a blur sets
Blurriness 50, and a transition uses duration 1, applied-to-start true and
alignment 0.5; a supplied blur value of 30 passes through. -/
theorem default_parameters_spec_witness :
    ((⟨2, 100, "BEZIER"⟩ : Keyframe).value = 100 ∧
      (⟨7, 150, "BEZIER"⟩ : Keyframe).value = 150) ∧
    (⟨7, 100, "BEZIER"⟩ : Keyframe).value = 100 ∧
    (50 : ℚ) = 50 ∧ (30 : ℚ) = 30 ∧
    ((⟨true, 1, false, 1 / 2⟩ : AddTransitionOptions).duration = 1 ∧
      (⟨true, 1, false, 1 / 2⟩ : AddTransitionOptions).applyToStart = true ∧
      (⟨true, 1, false, 1 / 2⟩ : AddTransitionOptions).transitionAlignment =
        1 / 2) := by
  obtain ⟨hin, hout, hblur, htrans⟩ := default_parameters_spec
  have hz : zoomIn envOK optsAnim =
      (true, [⟨2, 100, "BEZIER"⟩, ⟨7, 150, "BEZIER"⟩]) := by
    simp [zoomIn, envOK, optsAnim, jsOrNum, jsOrStr]
    norm_num
  have hzo : zoomOut envOK {} =
      (true, [⟨2, 100, "BEZIER"⟩, ⟨7, 100, "BEZIER"⟩]) := by
    simp [zoomOut, zoomIn, envOK, jsOrNum, jsOrStr]
    norm_num
  obtain ⟨-, -, hanim⟩ := hin envOK optsAnim ⟨2, 100, "BEZIER"⟩
    ⟨7, 150, "BEZIER"⟩ hz
  obtain ⟨hstart, -⟩ := hanim rfl
  obtain ⟨hend0, -, -⟩ := hin envOK optsAnim ⟨2, 100, "BEZIER"⟩
    ⟨7, 150, "BEZIER"⟩ hz
  obtain ⟨hoend, -, -⟩ := hout envOK {} ⟨2, 100, "BEZIER"⟩
    ⟨7, 100, "BEZIER"⟩ hzo
  have hb := (hblur blurEnvOK none true 50 (by decide)).1 rfl
  have hb2 := (hblur blurEnvOK (some 30) true 30 (by decide)).2 30 rfl
  have ht := htrans transEnvOK "cross dissolve" none none none
    ⟨true, 1, false, 1 / 2⟩ rfl
  exact ⟨⟨hstart rfl, hend0 rfl⟩, hoend rfl, hb, hb2,
    ht.1 rfl, ht.2.2.1 rfl, ht.2.2.2.2.1 rfl⟩

/-- C7: every `ActionResult` a provider returns satisfies the invariant —
exactly one of the `action` field, a non-empty `actions` sequence, or the
`error` field is present — and a present `error` forces
`confidence = 0`. -/
theorem actionResult_invariant_spec :
    ∀ o : ProviderOutcome,
      (((processPrompt o).action.isSome ∧ (processPrompt o).actions = [] ∧
          (processPrompt o).error = none) ∨
        ((processPrompt o).action = none ∧ (processPrompt o).actions ≠ [] ∧
          (processPrompt o).error = none) ∨
        ((processPrompt o).action = none ∧ (processPrompt o).actions = [] ∧
          (processPrompt o).error.isSome)) ∧
      ((processPrompt o).error.isSome → (processPrompt o).confidence = 0) := by
  intro o
  cases o <;> simp [processPrompt]

/-- C8: a history entry is created iff dispatch reported at least one
per-item success; with zero successes the history and the cursor are left
completely unchanged. -/
theorem editClipsRecord_spec :
    ∀ (s : ContainerState) (a : String) (items : List Nat) (ps : Nat)
      (params : List (String × ℚ)) (r : BatchCounts),
      s.chatCutUndosCount ≤ s.editHistory.length →
      (r.successful = 0 → editClipsRecord s a items ps params r = s) ∧
      (0 < r.successful →
        (editClipsRecord s a items ps params r).editHistory =
          s.editHistory.take (s.editHistory.length - s.chatCutUndosCount) ++
            [⟨a, items, ps, params⟩] ∧
        (editClipsRecord s a items ps params r).chatCutUndosCount = 0) := by
  intro s a items ps params r h
  constructor
  · intro h0
    simp [editClipsRecord, h0]
  · intro hpos
    have hne : ¬ r.successful = 0 := by omega
    simp only [editClipsRecord, if_pos hpos]
    rw [recordEdit_eq s _ h]
    exact ⟨rfl, rfl⟩

/-- C8 witness: at a concrete state with two undone entries, a dispatch
with zero successes leaves the state untouched, while one with two
successes trims the history, appends the new entry, and zeroes the
cursor. -/
theorem editClipsRecord_spec_witness :
    editClipsRecord stateTrim "zoomIn" [0] 9 [] ⟨0, 3⟩ = stateTrim ∧
    (editClipsRecord stateTrim "zoomIn" [0] 9 [] ⟨2, 1⟩).editHistory =
      [entryA, ⟨"zoomIn", [0], 9, []⟩] ∧
    (editClipsRecord stateTrim "zoomIn" [0] 9 [] ⟨2, 1⟩).chatCutUndosCount =
      0 := by
  obtain ⟨hz, -⟩ :=
    editClipsRecord_spec stateTrim "zoomIn" [0] 9 [] ⟨0, 3⟩ (by decide)
  obtain ⟨-, hp⟩ :=
    editClipsRecord_spec stateTrim "zoomIn" [0] 9 [] ⟨2, 1⟩ (by decide)
  obtain ⟨h1, h2⟩ := hp (by decide)
  refine ⟨hz rfl, ?_, h2⟩
  rw [h1]
  decide

/-- C9: `zoomOut` returns exactly `zoomIn` applied to the options with
`startScale` defaulted to 150 and `endScale` to 100 when absent
(`zoomOutOptionsSpec`); explicitly supplied scales pass through, so with
both scales present `zoomOut` coincides with `zoomIn` on the very same
options. -/
theorem zoomOut_refines_zoomIn :
    ∀ (env : ZoomEnv) (options : ZoomOptions),
      zoomOut env options = zoomIn env (zoomOutOptionsSpec options) ∧
      (∀ a b : ℚ, options.startScale = some a → options.endScale = some b →
        zoomOut env options = zoomIn env options) := by
  intro env options
  constructor
  · unfold zoomOut zoomOutOptionsSpec
    cases hs : options.startScale <;> cases he : options.endScale <;>
      simp [hs, he]
  · intro a b ha hb
    unfold zoomOut
    cases options
    simp_all

/-- C9 witness: `zoomOut` with both scales supplied (120/120) is
observationally identical to `zoomIn` on the same arguments. -/
theorem zoomOut_refines_zoomIn_witness :
    zoomOut envOK optsSame = zoomIn envOK optsSame :=
  (zoomOut_refines_zoomIn envOK optsSame).2 120 120 rfl rfl

/-- C10: when the per-entry restoration throws, `handleUndo` catches it,
reports the failure, and leaves the state — cursor included — unchanged;
the cursor changes only on the non-throwing path where the restoration
reported at least one success, and then by exactly 1. -/
theorem handleUndo_exception_spec :
    (∀ (exec : EditHistoryEntry → Option BatchCounts) (s : ContainerState)
        (entry : EditHistoryEntry),
      s.chatCutUndosCount < s.editHistory.length →
      s.editHistory[s.editHistory.length - s.chatCutUndosCount - 1]? =
        some entry →
      exec entry = none →
      handleUndo exec s = (s, UndoReport.threw)) ∧
    (∀ (exec : EditHistoryEntry → Option BatchCounts) (s : ContainerState),
      (handleUndo exec s).1.chatCutUndosCount ≠ s.chatCutUndosCount →
      ∃ entry r,
        s.editHistory[s.editHistory.length - s.chatCutUndosCount - 1]? =
          some entry ∧
        exec entry = some r ∧ 0 < r.successful ∧
        (handleUndo exec s).1.chatCutUndosCount =
          s.chatCutUndosCount + 1) := by
  constructor
  · intro exec s entry hlt hget hexec
    have hcond : ¬ (s.editHistory.length ≤ s.chatCutUndosCount) := by omega
    simp [handleUndo, hcond, hget, hexec]
  · intro exec s hne
    unfold handleUndo at hne ⊢
    by_cases h1 : s.editHistory.length ≤ s.chatCutUndosCount
    · simp [h1] at hne
    · simp only [h1, if_false] at hne ⊢
      cases hE : s.editHistory[s.editHistory.length - s.chatCutUndosCount - 1]? with
      | none => simp [hE] at hne
      | some entry =>
        cases hR : exec entry with
        | none => simp [hE, hR] at hne
        | some r =>
          by_cases hp : 0 < r.successful
          · exact ⟨entry, r, rfl, hR, hp, by simp [hR, hp]⟩
          · simp [hE, hR, hp] at hne

/-- C10 witness: at a one-entry history with cursor 0, a throwing
restoration yields the unchanged state with the failure report. -/
theorem handleUndo_exception_spec_witness :
    handleUndo execThrows ⟨[entryA], 0⟩ =
      (⟨[entryA], 0⟩, UndoReport.threw) :=
  handleUndo_exception_spec.1 execThrows ⟨[entryA], 0⟩ entryA (by decide)
    (by decide) rfl

end ChatCut
